import Mathlib

/-!
Verification of the household-ledger application (`src/src/App.jsx`, plus the
earlier revisions `src/unnamed/part_000` and `src/unnamed/part_001`).

The embedding is shallow: JavaScript numbers are modelled as `Int` (the claims
under scrutiny are exact arithmetic identities), Firestore document ids and
currency symbols as `String`, JavaScript objects used as currency → amount maps
as insertion-ordered association lists, and `Date` values as calendar tuples
with the `new Date(year, month, day, ...)` overflow normalization made
explicit.  Fallible mutations (Firestore `runTransaction` bodies) return
`Except`: a thrown error aborts the transaction, so no document changes.
-/

namespace LedgerApp

/-! ## Calendar model

`new Date(y, m, d, hh, mm, ss)` in JavaScript first normalizes the month into
`0..11` (carrying into the year) and then lets the day overflow or underflow
roll across month boundaries.  `normDateAux` performs exactly that
normalization, one carry/borrow per fuel step; the fuel passed by `mkJsDate`
is always sufficient for the inputs the application produces. -/

def isLeap (y : Int) : Bool :=
  (y % 4 == 0 && y % 100 != 0) || y % 400 == 0

/-- Days in month `m` (0-indexed, January = 0) of year `y`; `m` must be in
`0..11`. -/
def daysInMonth (y m : Int) : Int :=
  if m = 1 then (if isLeap y then 29 else 28)
  else if m = 3 ∨ m = 5 ∨ m = 8 ∨ m = 10 then 30
  else 31

def normDateAux : Nat → Int → Int → Int → Int × Int × Int
  | 0, y, m, d => (y, m, d)
  | n+1, y, m, d =>
    if m < 0 then normDateAux n (y - 1) (m + 12) d
    else if 12 ≤ m then normDateAux n (y + 1) (m - 12) d
    else if d < 1 then
      let p := if m = 0 then ((y - 1 : Int), (11 : Int)) else (y, m - 1)
      normDateAux n p.1 p.2 (d + daysInMonth p.1 p.2)
    else if daysInMonth y m < d then normDateAux n y (m + 1) (d - daysInMonth y m)
    else (y, m, d)

structure JsDate where
  year : Int
  month : Int
  day : Int
  hour : Int
  minute : Int
  second : Int
deriving DecidableEq

/-- `new Date(y, m, d, hh, mm, ss)` with calendar overflow normalization of
the date part (the time-of-day arguments used by the application are always
already in range). -/
def mkJsDate (y m d hh mm ss : Int) : JsDate :=
  let n := normDateAux (m.natAbs + d.natAbs + 100) y m d
  ⟨n.1, n.2.1, n.2.2, hh, mm, ss⟩

/-- An order-preserving integer code for normalized calendar tuples; two
normalized `JsDate`s compare (as JavaScript compares the underlying epoch
values) exactly as their codes compare. -/
def JsDate.timeCode (x : JsDate) : Int :=
  ((((x.year * 12 + x.month) * 32 + x.day) * 24 + x.hour) * 60 + x.minute) * 60 + x.second

def dateLE (a b : JsDate) : Bool :=
  a.timeCode ≤ b.timeCode

/-! ## Data model -/

inductive TxType where
  | income
  | expense
  | cardExpense
  | transfer
  | payment
deriving DecidableEq

structure Account where
  id : String
  name : String
  category : String
  currency : String
  /-- `none` models an absent `initialBalance` field. The source guards with
  JavaScript truthiness (`if (account.initialBalance)`), so a stored `0` is
  skipped exactly like an absent field. -/
  initialBalance : Option Int
deriving DecidableEq

structure Card where
  id : String
  name : String
  paymentDay : Int
  usageStartDay : Int
  usageEndDay : Int
  linkedAccountId : Option String
deriving DecidableEq

structure Transaction where
  id : String
  type : TxType
  description : String
  amount : Int
  originalAmount : Option Int
  originalCurrency : Option String
  accountId : Option String
  toAccountId : Option String
  cardId : Option String
  isPaid : Bool
  paidCardTransactionIds : List String
  date : JsDate
deriving DecidableEq

structure Currency where
  symbol : String
  name : String
  rate : Int
  isBase : Bool
deriving DecidableEq

/-- `accounts.reduce((acc, curr) => ({ ...acc, [curr.id]: curr }), {})`:
object spread lets a later entry with the same id win, hence the reversed
search. `none` keys (JavaScript `null`/`undefined`) match nothing. -/
def lookupAccount (accounts : List Account) (i : Option String) : Option Account :=
  match i with
  | none => none
  | some k => accounts.reverse.find? (fun a => a.id = k)

/-- `currencies.reduce((acc, curr) => ({ ...acc, [curr.symbol]: curr.rate }), {})` -/
def ratesOf (currencies : List Currency) (s : String) : Option Int :=
  (currencies.reverse.find? (fun c => c.symbol = s)).map (·.rate)

/-- `convertToKRW`: `if (!currency || currency === 'KRW') return amount;
return amount * (rates[currency] || 1);`.  The `|| 1` falls through on every
falsy rate, so a stored rate of `0` is also replaced by `1`. -/
def convertToKRW (rates : String → Option Int) (amount : Int) (currency : String) : Int :=
  if currency = "" ∨ currency = "KRW" then amount
  else amount * (match rates currency with
                 | none => 1
                 | some r => if r = 0 then 1 else r)

/-! ## Derived per-currency balances (`accountsWithCalculatedBalances`)

The JavaScript `balances` object is modelled as an insertion-ordered
association list: setting an existing key updates it in place, a new key is
appended. -/

abbrev Balances : Type := List (String × Int)

def getOr0 : Balances → String → Int
  | [], _ => 0
  | (k', v) :: rest, k => if k' = k then v else getOr0 rest k

def setK : Balances → String → Int → Balances
  | [], k, v => [(k, v)]
  | (k', v') :: rest, k, v =>
    if k' = k then (k, v) :: rest else (k', v') :: setK rest k v

/-- `t.originalCurrency || accountsById[t.accountId]?.currency || 'KRW'` -/
def effCurrency (accounts : List Account) (t : Transaction) : String :=
  match t.originalCurrency with
  | some c => c
  | none =>
    match lookupAccount accounts t.accountId with
    | some a => a.currency
    | none => "KRW"

/-- `t.originalAmount ?? t.amount` -/
def effAmount (t : Transaction) : Int :=
  t.originalAmount.getD t.amount

/-- One iteration of the `transactions.forEach` body of
`accountsWithCalculatedBalances` for the account with id `accId`. -/
def applyTx (accounts : List Account) (accId : String) (m : Balances) (t : Transaction) :
    Balances :=
  let currency := effCurrency accounts t
  let amount := effAmount t
  let m1 :=
    if t.accountId = some accId then
      if t.type = TxType.income then setK m currency (getOr0 m currency + amount)
      else if t.type = TxType.expense then setK m currency (getOr0 m currency - amount)
      else m
    else m
  if t.type = TxType.transfer then
    let m2 := if t.accountId = some accId then
                setK m1 currency (getOr0 m1 currency - amount)
              else m1
    if t.toAccountId = some accId then
      setK m2 currency (getOr0 m2 currency + amount)
    else m2
  else m1

/-- The initial `balances` object: `if (account.initialBalance)
balances[account.currency] = account.initialBalance;`. -/
def initBalances (account : Account) : Balances :=
  match account.initialBalance with
  | some b => if b = 0 then [] else [(account.currency, b)]
  | none => []

/-- The per-account derived balance map of `accountsWithCalculatedBalances`. -/
def calcBalances (accounts : List Account) (account : Account) (ts : List Transaction) :
    Balances :=
  ts.foldl (applyTx accounts account.id) (initBalances account)

/-- `Object.entries(balances)`-sum converted to KRW (an account's `totalKRW`). -/
def balancesTotalKRW (rates : String → Option Int) (m : Balances) : Int :=
  (m.map (fun p => convertToKRW rates p.2 p.1)).sum

/-! ## Reference computation for claim C1

Stated from the claim's words, not from the code: the balance of account
`account` in currency `c` is the initial balance (when `c` is the native
currency; contributing 0 when absent) plus, per transaction, a signed
contribution in the transaction's effective currency. -/

/-- Effective currency per the claim: `originalCurrency` if present, otherwise
the currency of the account referenced by `accountId`, otherwise `KRW`. -/
def specEffCurrency (accounts : List Account) (t : Transaction) : String :=
  match t.originalCurrency with
  | some c => c
  | none => ((lookupAccount accounts t.accountId).map (·.currency)).getD "KRW"

/-- Effective amount per the claim: `originalAmount` if present, otherwise the
stored amount. -/
def specEffAmount (t : Transaction) : Int :=
  match t.originalAmount with
  | some a => a
  | none => t.amount

/-- Signed contribution of one transaction to `account`'s balance in currency
`c`, per the claim: income adds, expense subtracts, a transfer subtracts at
the source and adds at the destination; everything else contributes nothing. -/
def specContribution (accounts : List Account) (account : Account) (t : Transaction)
    (c : String) : Int :=
  if specEffCurrency accounts t = c then
    let a := specEffAmount t
    (if t.type = TxType.income ∧ t.accountId = some account.id then a else 0)
    + (if t.type = TxType.expense ∧ t.accountId = some account.id then -a else 0)
    + (if t.type = TxType.transfer ∧ t.accountId = some account.id then -a else 0)
    + (if t.type = TxType.transfer ∧ t.toAccountId = some account.id then a else 0)
  else 0

/-- The claim's reference balance: initial balance plus the sum of all
transaction contributions, per currency. -/
def specBalance (accounts : List Account) (account : Account) (ts : List Transaction)
    (c : String) : Int :=
  (if account.currency = c then account.initialBalance.getD 0 else 0)
  + (ts.map (fun t => specContribution accounts account t c)).sum

/-! ### C1: the derived balance map refines the reference computation -/

theorem getOr0_setK (m : Balances) (k j : String) (v : Int) :
    getOr0 (setK m k v) j = if k = j then v else getOr0 m j := by
  induction m with
  | nil => simp [setK, getOr0]
  | cons p rest ih =>
    obtain ⟨k', v'⟩ := p
    by_cases hk : k' = k
    · subst hk
      by_cases hj : k' = j <;> simp [setK, getOr0, hj]
    · by_cases hj : k' = j
      · subst hj
        simp [setK, getOr0, hk]
        rw [if_neg (fun h => hk h.symm)]
      · simp [setK, getOr0, hk, hj, ih]

theorem getOr0_applyTx (accounts : List Account) (account : Account) (m : Balances)
    (t : Transaction) (c : String) :
    getOr0 (applyTx accounts account.id m t) c
      = getOr0 m c + specContribution accounts account t c := by
  have hcur : specEffCurrency accounts t = effCurrency accounts t := by
    cases h : t.originalCurrency <;>
      cases h' : lookupAccount accounts t.accountId <;>
        simp [specEffCurrency, effCurrency, h, h']
  have hamt : specEffAmount t = effAmount t := by
    cases h : t.originalAmount <;> simp [specEffAmount, effAmount, h]
  unfold applyTx specContribution
  rw [hcur, hamt]
  cases ht : t.type <;>
    by_cases ha : t.accountId = some account.id <;>
      by_cases hb : t.toAccountId = some account.id <;>
        by_cases hc : effCurrency accounts t = c <;>
          simp [ha, hb, hc, getOr0_setK] <;> omega

theorem getOr0_foldl (accounts : List Account) (account : Account) (ts : List Transaction)
    (m : Balances) (c : String) :
    getOr0 (ts.foldl (applyTx accounts account.id) m) c
      = getOr0 m c + (ts.map (fun t => specContribution accounts account t c)).sum := by
  induction ts generalizing m with
  | nil => simp
  | cons t rest ih =>
    simp only [List.foldl_cons, List.map_cons, List.sum_cons, ih, getOr0_applyTx]
    omega

theorem getOr0_initBalances (account : Account) (c : String) :
    getOr0 (initBalances account) c
      = if account.currency = c then account.initialBalance.getD 0 else 0 := by
  cases h : account.initialBalance with
  | none => simp [initBalances, h, getOr0]
  | some b =>
    by_cases hb : b = 0 <;>
      by_cases hc : account.currency = c <;>
        simp [initBalances, h, hb, hc, getOr0]

/-- C1: for every account and every transaction set, the derived per-currency
balance map computed by `accountsWithCalculatedBalances` agrees, in every
currency, with the reference computation stated in the claim: initial balance
under the native currency (0 when absent) plus the signed per-transaction
contributions in each transaction's effective currency. -/
theorem c1_derived_balance_refines_spec (accounts : List Account) (account : Account)
    (ts : List Transaction) (c : String) :
    getOr0 (calcBalances accounts account ts) c = specBalance accounts account ts c := by
  unfold calcBalances specBalance
  rw [getOr0_foldl, getOr0_initBalances]

/-! ## Aggregates (`totalAssetInKRW` memo block of `App.jsx`)

`today` is the `new Date()` taken inside the memo, passed explicitly here as
the injectable evaluation time. -/

structure AccountCalc where
  account : Account
  balances : Balances
  totalKRW : Int
deriving DecidableEq

def accountsWithCalculatedBalances (accounts : List Account) (ts : List Transaction)
    (currencies : List Currency) : List AccountCalc :=
  accounts.map (fun account =>
    let balances := calcBalances accounts account ts
    ⟨account, balances, balancesTotalKRW (ratesOf currencies) balances⟩)

def totalCashAssetInKRW (accounts : List Account) (ts : List Transaction)
    (currencies : List Currency) : Int :=
  ((accountsWithCalculatedBalances accounts ts currencies).map (·.totalKRW)).sum

def assetsByCurrency (accounts : List Account) (ts : List Transaction)
    (currencies : List Currency) : Balances :=
  (accountsWithCalculatedBalances accounts ts currencies).foldl
    (fun summary a =>
      a.balances.foldl (fun s p => setK s p.1 (getOr0 s p.1 + p.2)) summary)
    []

structure CardPayment where
  cardId : String
  cardName : String
  linkedAccountId : Option String
  amount : Int
deriving DecidableEq

def usageStartOf (card : Card) (today : JsDate) : JsDate :=
  mkJsDate today.year
    (today.month - (if today.day < card.paymentDay then 1 else 0))
    card.usageStartDay 0 0 0

def usageEndOf (card : Card) (today : JsDate) : JsDate :=
  mkJsDate today.year
    (today.month + (if today.day < card.paymentDay then 0 else 1))
    card.usageEndDay 23 59 59

/-- The filter of unpaid card expenses inside the card's open usage window. -/
def inWindowUnpaid (card : Card) (today : JsDate) (t : Transaction) : Bool :=
  decide (t.type = TxType.cardExpense) && decide (t.cardId = some card.id) && !t.isPaid
    && dateLE (usageStartOf card today) t.date && dateLE t.date (usageEndOf card today)

/-- The due amount the memo computes for one card (also recomputed verbatim by
`CardList` as `amountToPay`). -/
def cardDue (ts : List Transaction) (card : Card) (today : JsDate) : Int :=
  ((ts.filter (inWindowUnpaid card today)).map (·.amount)).sum

def cardPayments (cards : List Card) (ts : List Transaction) (today : JsDate) :
    List CardPayment :=
  cards.map (fun card => ⟨card.id, card.name, card.linkedAccountId, cardDue ts card today⟩)

def upcomingPayments (cards : List Card) (ts : List Transaction) (today : JsDate) :
    List CardPayment :=
  (cardPayments cards ts today).filter (fun p => 0 < p.amount)

def totalAssetInKRW (accounts : List Account) (cards : List Card) (ts : List Transaction)
    (currencies : List Currency) (today : JsDate) : Int :=
  totalCashAssetInKRW accounts ts currencies
    - ((cardPayments cards ts today).map (·.amount)).sum

/-! ### C6: upcoming payments and the projected total -/

/-- Concrete snapshot for the C6 counterexample: a single card whose only
in-window unpaid card expense has a negative amount (amounts are signed, and
no form validation forbids this). -/
def cxCard : Card := ⟨"c1", "card", 15, 1, 1, none⟩

def cxNow : JsDate := ⟨2026, 0, 20, 12, 0, 0⟩

def cxNegTx : Transaction :=
  ⟨"t1", TxType.cardExpense, "refund", -100, none, none, none, none, some "c1", false, [],
    ⟨2026, 0, 10, 0, 0, 0⟩⟩

/-- C6 counterexample: with one card whose computed due amount is `-100`,
`upcomingPayments` is empty (the filter keeps only strictly positive dues),
yet `totalAssetInKRW` subtracts the sum over all cards, so it differs from
`totalCashAssetInKRW` minus the sum of the `upcomingPayments` amounts. -/
theorem c6_counterexample :
    ¬ (totalAssetInKRW [] [cxCard] [cxNegTx] [] cxNow
        = totalCashAssetInKRW [] [cxNegTx] []
          - ((upcomingPayments [cxCard] [cxNegTx] cxNow).map (·.amount)).sum) := by
  decide

/-- C6 (amended): `upcomingPayments` contains exactly the cards whose computed
due amount is strictly positive, paired with that due amount; and
`totalAssetInKRW` equals `totalCashAssetInKRW` minus the sum of the computed
due amounts of ALL cards (not only of those listed in `upcomingPayments`; the
two sums agree whenever no card's due amount is negative). -/
theorem c6_aggregate_amended (accounts : List Account) (cards : List Card)
    (ts : List Transaction) (currencies : List Currency) (today : JsDate) :
    upcomingPayments cards ts today
      = (cards.filter (fun card => 0 < cardDue ts card today)).map
          (fun card => ⟨card.id, card.name, card.linkedAccountId, cardDue ts card today⟩)
    ∧ totalAssetInKRW accounts cards ts currencies today
      = totalCashAssetInKRW accounts ts currencies
        - (cards.map (fun card => cardDue ts card today)).sum := by
  constructor
  · unfold upcomingPayments cardPayments
    induction cards with
    | nil => rfl
    | cons card rest ih =>
      by_cases h : 0 < cardDue ts card today <;>
        simp [List.filter, h, ih]
  · unfold totalAssetInKRW cardPayments
    rw [List.map_map]
    rfl

/-! ### C7: currency conversion -/

def usdZeroRate : Currency := ⟨"USD", "dollar", 0, false⟩

/-- C7 counterexample: a currency present in the table with stored rate `0` is
converted at rate `1` (the JavaScript `rates[currency] || 1` falls through on
the falsy `0`), not at its table rate as the claim states. -/
theorem c7_counterexample :
    ¬ (convertToKRW (ratesOf [usdZeroRate]) 100 "USD"
        = 100 * ((ratesOf [usdZeroRate] "USD").getD 1)) := by
  decide

/-- The effective conversion rate, per the amended claim: `1` for the base
currency `KRW` (and for an empty symbol), `1` for a symbol missing from the
table, and `1` for a symbol whose stored rate is `0`; the stored rate
otherwise. -/
def specEffRate (currencies : List Currency) (symbol : String) : Int :=
  if symbol = "" ∨ symbol = "KRW" then 1
  else
    match ratesOf currencies symbol with
    | none => 1
    | some r => if r = 0 then 1 else r

/-- C7 (amended): conversion to KRW is total and multiplies by the effective
rate — which treats a stored rate of `0` like a missing one, i.e. as `1` —
and an account whose derived balance map is exactly 100 units of a currency
with rate 1300 has `totalKRW = 130000`; `totalCashAssetInKRW` is the sum of
the per-account `totalKRW` values, so that account contributes exactly
130000 to it. -/
theorem c7_conversion_amended :
    (∀ (currencies : List Currency) (amount : Int) (symbol : String),
      convertToKRW (ratesOf currencies) amount symbol = amount * specEffRate currencies symbol)
    ∧ ∀ (accounts : List Account) (ts : List Transaction) (currencies : List Currency)
        (account : Account) (c : String),
        calcBalances accounts account ts = [(c, 100)] →
        ratesOf currencies c = some 1300 → ¬ (c = "" ∨ c = "KRW") →
        balancesTotalKRW (ratesOf currencies) (calcBalances accounts account ts) = 130000
        ∧ totalCashAssetInKRW accounts ts currencies
          = (accounts.map (fun a =>
              balancesTotalKRW (ratesOf currencies) (calcBalances accounts a ts))).sum := by
  constructor
  · intro currencies amount symbol
    unfold convertToKRW specEffRate
    by_cases h : symbol = "" ∨ symbol = "KRW"
    · simp [h]
    · cases hr : ratesOf currencies symbol with
      | none => simp [h, hr]
      | some r => by_cases h0 : r = 0 <;> simp [h, hr, h0]
  · intro accounts ts currencies account c hbal hrate hc
    constructor
    · rw [hbal]
      unfold balancesTotalKRW convertToKRW
      simp [hc, hrate]
    · unfold totalCashAssetInKRW accountsWithCalculatedBalances
      rw [List.map_map]
      rfl

def c7wAccount : Account := ⟨"a7", "acct", "bank", "USD", some 100⟩

def c7wCurrency : Currency := ⟨"USD", "dollar", 1300, false⟩

/-- Witness for C7 (amended): an account holding exactly 100 USD at rate 1300
has `totalKRW = 130000`. -/
theorem c7_conversion_amended_witness :
    balancesTotalKRW (ratesOf [c7wCurrency]) (calcBalances [c7wAccount] c7wAccount []) = 130000 :=
  (c7_conversion_amended.2 [c7wAccount] [] [c7wCurrency] c7wAccount "USD" (by decide) (by decide)
    (by decide)).1

/-! ### C9: orphaned references -/

theorem applyTx_not_referenced (accounts : List Account) (i : String) (m : Balances)
    (t : Transaction) (h1 : t.accountId ≠ some i) (h2 : t.toAccountId ≠ some i) :
    applyTx accounts i m t = m := by
  unfold applyTx
  simp [h1, h2]

theorem cardDue_append_other (ts : List Transaction) (card : Card) (today : JsDate)
    (t : Transaction) (h : t.cardId ≠ some card.id) :
    cardDue (ts ++ [t]) card today = cardDue ts card today := by
  unfold cardDue
  rw [List.filter_append]
  simp [List.filter, inWindowUnpaid, h]

/-- C9: a transaction none of whose references (`accountId`, `toAccountId`,
`cardId`) matches an existing account or card leaves every derived aggregate
unchanged — it contributes zero to every existing account's derived balance
and to every card due — and the whole computation is total by construction
(every function here is a total Lean function; the source likewise never
dereferences a missing document, it falls back via `?.` and `|| 'KRW'`). -/
theorem c9_orphan_contributes_zero (accounts : List Account) (cards : List Card)
    (ts : List Transaction) (currencies : List Currency) (today : JsDate) (t : Transaction)
    (hA : ∀ a ∈ accounts, t.accountId ≠ some a.id ∧ t.toAccountId ≠ some a.id)
    (hC : ∀ cd ∈ cards, t.cardId ≠ some cd.id) :
    (∀ account ∈ accounts,
      calcBalances accounts account (ts ++ [t]) = calcBalances accounts account ts)
    ∧ accountsWithCalculatedBalances accounts (ts ++ [t]) currencies
      = accountsWithCalculatedBalances accounts ts currencies
    ∧ totalCashAssetInKRW accounts (ts ++ [t]) currencies
      = totalCashAssetInKRW accounts ts currencies
    ∧ assetsByCurrency accounts (ts ++ [t]) currencies
      = assetsByCurrency accounts ts currencies
    ∧ cardPayments cards (ts ++ [t]) today = cardPayments cards ts today
    ∧ upcomingPayments cards (ts ++ [t]) today = upcomingPayments cards ts today
    ∧ totalAssetInKRW accounts cards (ts ++ [t]) currencies today
      = totalAssetInKRW accounts cards ts currencies today := by
  have hbal : ∀ account ∈ accounts,
      calcBalances accounts account (ts ++ [t]) = calcBalances accounts account ts := by
    intro account hmem
    unfold calcBalances
    rw [List.foldl_append]
    exact applyTx_not_referenced accounts account.id _ t (hA account hmem).1 (hA account hmem).2
  have hawcb : accountsWithCalculatedBalances accounts (ts ++ [t]) currencies
      = accountsWithCalculatedBalances accounts ts currencies := by
    unfold accountsWithCalculatedBalances
    exact List.map_congr_left (fun a ha => by rw [hbal a ha])
  have hcp : cardPayments cards (ts ++ [t]) today = cardPayments cards ts today := by
    unfold cardPayments
    exact List.map_congr_left (fun card hc => by rw [cardDue_append_other ts card today t (hC card hc)])
  refine ⟨hbal, hawcb, ?_, ?_, hcp, ?_, ?_⟩
  · unfold totalCashAssetInKRW
    rw [hawcb]
  · unfold assetsByCurrency
    rw [hawcb]
  · unfold upcomingPayments
    rw [hcp]
  · unfold totalAssetInKRW totalCashAssetInKRW
    rw [hawcb, hcp]

def wOrphanAccount : Account := ⟨"a1", "acct", "bank", "KRW", some 500⟩

def wOrphanCard : Card := ⟨"c9", "card", 15, 1, 31, some "a1"⟩

def wOrphanTx : Transaction :=
  ⟨"t9", TxType.expense, "orphan", 70, none, none, some "gone", none, some "gone-card", false, [],
    ⟨2026, 0, 10, 0, 0, 0⟩⟩

/-- Witness for C9 at a concrete snapshot: an expense referencing a deleted
account leaves the cash total unchanged. -/
theorem c9_orphan_contributes_zero_witness :
    totalCashAssetInKRW [wOrphanAccount] ([] ++ [wOrphanTx]) []
      = totalCashAssetInKRW [wOrphanAccount] [] [] :=
  (c9_orphan_contributes_zero [wOrphanAccount] [wOrphanCard] [] [] cxNow wOrphanTx
    (by decide) (by decide)).2.2.1

/-! ### C2: the billing-cycle usage window -/

theorem normDateAux_inRange (n : ℕ) (y m d : Int) (h0 : 0 ≤ m) (h1 : m < 12)
    (hd1 : 1 ≤ d) (hd2 : d ≤ daysInMonth y m) :
    normDateAux n y m d = (y, m, d) := by
  cases n with
  | zero => rfl
  | succ k =>
    show normDateAux (k + 1) y m d = (y, m, d)
    simp only [normDateAux]
    rw [if_neg (by omega), if_neg (by omega), if_neg (by omega), if_neg (by omega)]

theorem mkJsDate_inRange (y m d hh mm ss : Int) (h0 : 0 ≤ m) (h1 : m < 12)
    (hd1 : 1 ≤ d) (hd2 : d ≤ daysInMonth y m) :
    mkJsDate y m d hh mm ss = ⟨y, m, d, hh, mm, ss⟩ := by
  unfold mkJsDate
  rw [normDateAux_inRange _ y m d h0 h1 hd1 hd2]

theorem mkJsDate_negMonth (y m d hh mm ss : Int) (h0 : m < 0) (h1 : 0 ≤ m + 12)
    (hd1 : 1 ≤ d) (hd2 : d ≤ daysInMonth (y - 1) (m + 12)) :
    mkJsDate y m d hh mm ss = ⟨y - 1, m + 12, d, hh, mm, ss⟩ := by
  unfold mkJsDate
  obtain ⟨k, hk⟩ : ∃ k, m.natAbs + d.natAbs + 100 = k + 1 := ⟨m.natAbs + d.natAbs + 99, by omega⟩
  rw [hk]
  have hstep : normDateAux (k + 1) y m d = normDateAux k (y - 1) (m + 12) d := by
    simp only [normDateAux]
    rw [if_pos h0]
  rw [hstep, normDateAux_inRange k (y - 1) (m + 12) d h1 (by omega) hd1 hd2]

theorem mkJsDate_bigMonth (y m d hh mm ss : Int) (h0 : 12 ≤ m) (h1 : m - 12 < 12)
    (hd1 : 1 ≤ d) (hd2 : d ≤ daysInMonth (y + 1) (m - 12)) :
    mkJsDate y m d hh mm ss = ⟨y + 1, m - 12, d, hh, mm, ss⟩ := by
  unfold mkJsDate
  obtain ⟨k, hk⟩ : ∃ k, m.natAbs + d.natAbs + 100 = k + 1 := ⟨m.natAbs + d.natAbs + 99, by omega⟩
  rw [hk]
  have hstep : normDateAux (k + 1) y m d = normDateAux k (y + 1) (m - 12) d := by
    simp only [normDateAux]
    rw [if_neg (by omega), if_pos h0]
  rw [hstep, normDateAux_inRange k (y + 1) (m - 12) d (by omega) h1 hd1 hd2]

/-- The calendar month preceding `(y, m)` (0-indexed months), per the claim's
phrase "the calendar month preceding now's month". -/
def prevYM (y m : Int) : Int × Int :=
  if m = 0 then (y - 1, 11) else (y, m - 1)

/-- The calendar month following `(y, m)`. -/
def nextYM (y m : Int) : Int × Int :=
  if m = 11 then (y + 1, 0) else (y, m + 1)

/-- The claim's usage-window start month: the previous calendar month when the
evaluation day-of-month is strictly before `paymentDay`, the current one
otherwise. -/
def windowStartYM (card : Card) (now : JsDate) : Int × Int :=
  if now.day < card.paymentDay then prevYM now.year now.month else (now.year, now.month)

/-- The claim's usage-window end month: one calendar month after the start
month. -/
def windowEndYM (card : Card) (now : JsDate) : Int × Int :=
  nextYM (windowStartYM card now).1 (windowStartYM card now).2

def c2Card : Card := ⟨"c2", "card", 15, 1, 31, none⟩

def c2Now : JsDate := ⟨2026, 3, 10, 12, 0, 0⟩

/-- C2 counterexample: for the claim's own example card (`paymentDay = 15`,
`usageStartDay = 1`, `usageEndDay = 31`) evaluated on 2026-04-10 (April,
month index 3, before the 15th), `new Date(2026, 3, 31, 23, 59, 59)`
overflows April's 30 days and lands on May 1, so `usageEnd` is neither in
the month following `usageStart`'s month (March) nor on day `usageEndDay`. -/
theorem c2_counterexample :
    ¬ ((usageEndOf c2Card c2Now).year = (usageStartOf c2Card c2Now).year
        ∧ (usageEndOf c2Card c2Now).month = (usageStartOf c2Card c2Now).month + 1
        ∧ (usageEndOf c2Card c2Now).day = c2Card.usageEndDay) := by
  decide

/-- C2 (amended): provided `usageStartDay` does not exceed the length of the
window's start month and `usageEndDay` does not exceed the length of the
following month (otherwise the JavaScript `Date` day overflow rolls the bound
into a later month), the usage window computed by the `cardPayments` memo is
exactly as claimed: `usageStart` at `usageStartDay 00:00:00` in the previous
calendar month when the evaluation day is strictly before `paymentDay` and in
the current month otherwise, and `usageEnd` at `usageEndDay 23:59:59` exactly
one calendar month after `usageStart`'s month. -/
theorem c2_window_amended (card : Card) (now : JsDate)
    (hm0 : 0 ≤ now.month) (hm1 : now.month < 12)
    (hs1 : 1 ≤ card.usageStartDay)
    (hs2 : card.usageStartDay
      ≤ daysInMonth (windowStartYM card now).1 (windowStartYM card now).2)
    (he1 : 1 ≤ card.usageEndDay)
    (he2 : card.usageEndDay
      ≤ daysInMonth (windowEndYM card now).1 (windowEndYM card now).2) :
    usageStartOf card now
      = ⟨(windowStartYM card now).1, (windowStartYM card now).2, card.usageStartDay, 0, 0, 0⟩
    ∧ usageEndOf card now
      = ⟨(windowEndYM card now).1, (windowEndYM card now).2, card.usageEndDay, 23, 59, 59⟩ := by
  by_cases hday : now.day < card.paymentDay
  · by_cases hm : now.month = 0
    · have hstart : windowStartYM card now = (now.year - 1, 11) := by
        simp [windowStartYM, prevYM, hday, hm]
      have hend : windowEndYM card now = (now.year, 0) := by
        simp [windowEndYM, hstart, nextYM]
      rw [hstart] at hs2
      rw [hend] at he2
      rw [hstart, hend]
      constructor
      · unfold usageStartOf
        rw [if_pos hday, hm, mkJsDate_negMonth _ _ _ _ _ _ (by omega) (by omega) hs1
          (by simpa using hs2)]
        simp
      · unfold usageEndOf
        rw [if_pos hday, hm, mkJsDate_inRange _ _ _ _ _ _ (by omega) (by omega) he1
          (by simpa using he2)]
        simp
    · have hstart : windowStartYM card now = (now.year, now.month - 1) := by
        simp [windowStartYM, prevYM, hday, hm]
      have hend : windowEndYM card now = (now.year, now.month) := by
        have h11 : ¬ (now.month - 1 = 11) := by omega
        simp [windowEndYM, hstart, nextYM, h11]
      rw [hstart] at hs2
      rw [hend] at he2
      rw [hstart, hend]
      constructor
      · unfold usageStartOf
        rw [if_pos hday, mkJsDate_inRange _ _ _ _ _ _ (by omega) (by omega) hs1
          (by simpa using hs2)]
      · unfold usageEndOf
        rw [if_pos hday, mkJsDate_inRange _ _ _ _ _ _ (by omega) (by omega) he1
          (by simpa using he2)]
        simp
  · have hstart : windowStartYM card now = (now.year, now.month) := by
      simp [windowStartYM, hday]
    rw [hstart] at hs2
    rw [hstart]
    by_cases hm : now.month = 11
    · have hend : windowEndYM card now = (now.year + 1, 0) := by
        simp [windowEndYM, hstart, nextYM, hm]
      rw [hend] at he2
      rw [hend]
      constructor
      · unfold usageStartOf
        rw [if_neg hday, mkJsDate_inRange _ _ _ _ _ _ (by omega) (by omega) hs1
          (by simpa using hs2)]
        simp
      · unfold usageEndOf
        rw [if_neg hday, hm, mkJsDate_bigMonth _ _ _ _ _ _ (by omega) (by omega) he1
          (by simpa using he2)]
        simp
    · have hend : windowEndYM card now = (now.year, now.month + 1) := by
        simp [windowEndYM, hstart, nextYM, hm]
      rw [hend] at he2
      rw [hend]
      constructor
      · unfold usageStartOf
        rw [if_neg hday, mkJsDate_inRange _ _ _ _ _ _ (by omega) (by omega) hs1
          (by simpa using hs2)]
        simp
      · unfold usageEndOf
        rw [if_neg hday, mkJsDate_inRange _ _ _ _ _ _ (by omega) (by omega) he1
          (by simpa using he2)]

def c2wNow : JsDate := ⟨2026, 2, 10, 12, 0, 0⟩

/-- Witness for C2 (amended) at 2026-03-10 with the claim's example card: the
window is [2026-02-01 00:00:00, 2026-03-31 23:59:59]. -/
theorem c2_window_amended_witness :
    usageStartOf c2Card c2wNow = ⟨2026, 1, 1, 0, 0, 0⟩
    ∧ usageEndOf c2Card c2wNow = ⟨2026, 2, 31, 23, 59, 59⟩ := by
  have h := c2_window_amended c2Card c2wNow (by decide) (by decide) (by decide) (by decide)
    (by decide) (by decide)
  exact ⟨by rw [h.1]; decide, by rw [h.2]; decide⟩

/-! ### C3: `payment` and `card-expense` in the derived balance model -/

def c3Account : Account := ⟨"a3", "acct", "bank", "KRW", some 1000⟩

def c3PayTx : Transaction :=
  ⟨"p3", TxType.payment, "card settlement", 100, none, none, some "a3", none, none, false,
    ["x1"], ⟨2026, 0, 5, 0, 0, 0⟩⟩

/-- C3 counterexample: the `transactions.forEach` body of
`accountsWithCalculatedBalances` matches only `income`, `expense` and
`transfer`, so a `payment` transaction whose `accountId` is the settlement
account does NOT decrease that account's derived balance (the debit is
applied to the stored `balance` field by `handleConfirmPayment` instead,
and that field is not read by the derived model). -/
theorem c3_counterexample :
    ¬ (getOr0 (calcBalances [c3Account] c3Account [c3PayTx]) "KRW"
        = getOr0 (calcBalances [c3Account] c3Account []) "KRW" - c3PayTx.amount) := by
  decide

/-- C3 (amended): in the derived balance model, neither a `payment` nor a
`card-expense` transaction changes any account's derived per-currency balance
map; the settlement-account debit of a confirmed card payment lives only in
the stored `balance` field written by `handleConfirmPayment`. -/
theorem c3_payment_no_derived_effect (accounts : List Account) (account : Account)
    (ts : List Transaction) (t : Transaction)
    (h : t.type = TxType.payment ∨ t.type = TxType.cardExpense) :
    calcBalances accounts account (ts ++ [t]) = calcBalances accounts account ts := by
  unfold calcBalances
  rw [List.foldl_append]
  rcases h with h | h <;> simp [applyTx, h]

/-- Witness for C3 (amended): the concrete payment transaction leaves the
derived balances untouched. -/
theorem c3_payment_no_derived_effect_witness :
    calcBalances [c3Account] c3Account ([] ++ [c3PayTx]) = calcBalances [c3Account] c3Account [] :=
  c3_payment_no_derived_effect [c3Account] c3Account [] c3PayTx (Or.inl rfl)

/-! ## Document-store state machine (stored-balance revisions)

`handleConfirmPayment` (App.jsx) and `handleDeleteTransaction` /
`AddTransactionForm.handleSubmit` (part_000 / part_001) run inside a Firestore
`runTransaction`: a thrown error aborts the transaction and no document
changes.  The store is a pair of collections; `Except.error` models the
abort. -/

structure StoredAccount where
  id : String
  currency : String
  balance : Int
deriving DecidableEq

structure DocState where
  accounts : List StoredAccount
  transactions : List Transaction
deriving DecidableEq

def lookupStored (accounts : List StoredAccount) (i : String) : Option StoredAccount :=
  accounts.find? (fun a => a.id = i)

def commitOr (st : DocState) : Except String DocState → DocState
  | .ok s => s
  | .error _ => st

/-! ### C4: card-payment confirmation -/

/-- The `payment` document written by `handleConfirmPayment`
(`type: 'payment'`, `accountId: linkedAccountId`, `amount`, a description
derived from the card name, `date: Timestamp.now()`,
`paidCardTransactionIds`). -/
def paymentTxDoc (cardName : String) (amount : Int) (linkedAccountId : String)
    (toPay : List Transaction) (newId : String) (now : JsDate) : Transaction :=
  ⟨newId, TxType.payment, cardName ++ " settlement", amount, none, none,
    some linkedAccountId, none, none, false, toPay.map (·.id), now⟩

/-- `handleConfirmPayment`: read the linked account (throw when missing),
debit it by `amount`, write one new `payment` document, and set
`isPaid: true` on every transaction of `transactionsToPay` — all inside one
`runTransaction`. -/
def confirmPayment (st : DocState) (cardName : String) (amount : Int)
    (linkedAccountId : String) (toPay : List Transaction) (newId : String) (now : JsDate) :
    Except String DocState :=
  match lookupStored st.accounts linkedAccountId with
  | none => .error "linked account not found"
  | some acc =>
    .ok
      { accounts := st.accounts.map (fun a =>
          if a.id = linkedAccountId then { a with balance := acc.balance - amount } else a),
        transactions :=
          (st.transactions.map (fun t =>
            if toPay.any (fun p => p.id = t.id) then { t with isPaid := true } else t))
          ++ [paymentTxDoc cardName amount linkedAccountId toPay newId now] }

theorem lookupStored_map_if (l : List StoredAccount) (i : String)
    (g : StoredAccount → StoredAccount) (acc : StoredAccount)
    (hg : ∀ a, (g a).id = a.id) (h : lookupStored l i = some acc) :
    lookupStored (l.map (fun a => if a.id = i then g a else a)) i = some (g acc) := by
  induction l with
  | nil => simp [lookupStored] at h
  | cons a rest ih =>
    by_cases ha : a.id = i
    · rw [lookupStored, List.find?_cons_of_pos _ (by simp [ha])] at h
      cases h
      simp [lookupStored, List.find?_cons_of_pos, ha, hg]
    · rw [lookupStored, List.find?_cons_of_neg _ (by simp [ha])] at h
      simpa [lookupStored, List.map_cons, List.find?_cons_of_neg, ha] using ih h

/-- C4: with the payment amount being the total of the settled card expenses
(as `CardList` passes it), confirming against an existing linked account
debits exactly that total from the stored balance, appends exactly one new
`payment` document carrying the total and the settled ids, and flips
`isPaid` on each settled transaction; when the linked account does not
exist the transaction throws and, the run being atomic, every document is
left unchanged. -/
theorem c4_confirm_payment_atomic (st : DocState) (cardName : String)
    (linkedAccountId : String) (toPay : List Transaction) (newId : String) (now : JsDate)
    (amount : Int) (hamt : amount = (toPay.map (·.amount)).sum)
    (hfresh : ∀ t ∈ st.transactions, t.id ≠ newId) :
    (∀ acc, lookupStored st.accounts linkedAccountId = some acc →
      ∃ s', confirmPayment st cardName amount linkedAccountId toPay newId now = .ok s'
        ∧ lookupStored s'.accounts linkedAccountId
            = some { acc with balance := acc.balance - (toPay.map (·.amount)).sum }
        ∧ s'.transactions.length = st.transactions.length + 1
        ∧ s'.transactions.filter (fun t => t.id = newId)
            = [paymentTxDoc cardName amount linkedAccountId toPay newId now]
        ∧ (paymentTxDoc cardName amount linkedAccountId toPay newId now).type = TxType.payment
        ∧ (paymentTxDoc cardName amount linkedAccountId toPay newId now).amount
            = (toPay.map (·.amount)).sum
        ∧ (paymentTxDoc cardName amount linkedAccountId toPay newId now).paidCardTransactionIds
            = toPay.map (·.id)
        ∧ ∀ t ∈ st.transactions, toPay.any (fun p => p.id = t.id) →
            { t with isPaid := true } ∈ s'.transactions)
    ∧ (lookupStored st.accounts linkedAccountId = none →
        confirmPayment st cardName amount linkedAccountId toPay newId now
          = .error "linked account not found"
        ∧ commitOr st (confirmPayment st cardName amount linkedAccountId toPay newId now)
          = st) := by
  constructor
  · intro acc hacc
    refine ⟨_, by rw [confirmPayment, hacc], ?_, ?_, ?_, rfl, by subst hamt; rfl, rfl, ?_⟩
    · exact hamt ▸ lookupStored_map_if st.accounts linkedAccountId _ acc (fun a => rfl) hacc
    · simp
    · rw [List.filter_append]
      have h1 : (st.transactions.map (fun t =>
          if toPay.any (fun p => p.id = t.id) then { t with isPaid := true } else t)).filter
            (fun t => t.id = newId) = [] := by
        rw [List.filter_eq_nil_iff]
        intro b hb
        obtain ⟨t, ht, rfl⟩ := List.mem_map.mp hb
        have := hfresh t ht
        by_cases hp : toPay.any (fun p => p.id = t.id) <;> simp [hp, this]
      rw [h1]
      simp [paymentTxDoc]
    · intro t ht hp
      refine List.mem_append.mpr (Or.inl (List.mem_map.mpr ⟨t, ht, ?_⟩))
      rw [if_pos hp]
  · intro hnone
    rw [confirmPayment, hnone]
    exact ⟨rfl, rfl⟩

def c4Acc : StoredAccount := ⟨"a1", "KRW", 500⟩

def c4CardTx (i : String) (amt : Int) : Transaction :=
  ⟨i, TxType.cardExpense, "buy", amt, none, none, none, none, some "c1", false, [],
    ⟨2026, 0, 5, 0, 0, 0⟩⟩

def c4St : DocState :=
  ⟨[c4Acc], [c4CardTx "t1" 50000, c4CardTx "t2" 40000, c4CardTx "t3" 60000]⟩

def c4ToPay : List Transaction := [c4CardTx "t1" 50000, c4CardTx "t2" 40000, c4CardTx "t3" 60000]

/-- Witness for C4 at the spec's own example: three unpaid card expenses
totalling 150000 settle into one payment document and a 150000 debit. -/
theorem c4_confirm_payment_atomic_witness :
    ∃ s', confirmPayment c4St "card" 150000 "a1" c4ToPay "p9" cxNow = .ok s'
      ∧ lookupStored s'.accounts "a1"
          = some { c4Acc with balance := c4Acc.balance - (c4ToPay.map (·.amount)).sum }
      ∧ s'.transactions.length = c4St.transactions.length + 1
      ∧ s'.transactions.filter (fun t => t.id = "p9")
          = [paymentTxDoc "card" 150000 "a1" c4ToPay "p9" cxNow]
      ∧ (paymentTxDoc "card" 150000 "a1" c4ToPay "p9" cxNow).type = TxType.payment
      ∧ (paymentTxDoc "card" 150000 "a1" c4ToPay "p9" cxNow).amount
          = (c4ToPay.map (·.amount)).sum
      ∧ (paymentTxDoc "card" 150000 "a1" c4ToPay "p9" cxNow).paidCardTransactionIds
          = c4ToPay.map (·.id)
      ∧ ∀ t ∈ c4St.transactions, c4ToPay.any (fun p => p.id = t.id) →
          { t with isPaid := true } ∈ s'.transactions :=
  (c4_confirm_payment_atomic c4St "card" "a1" c4ToPay "p9" cxNow 150000 (by decide)
    (by decide)).1 c4Acc (by decide)

/-! ### C5: deleting a `payment` transaction -/

/-- `accDoc.data().balance` read inside the delete transaction (`none` when
the referenced document does not exist, including a `null` reference). -/
def readBalance (accounts : List StoredAccount) (i : Option String) : Option Int :=
  match i with
  | none => none
  | some k => (lookupStored accounts k).map (·.balance)

/-- `if (accDoc.exists()) transaction.update(accRef, { balance: v })` — the
written value `v` was computed from the pre-transaction read. -/
def writeBalance (accounts : List StoredAccount) (i : Option String) (v : Option Int) :
    List StoredAccount :=
  match i, v with
  | some k, some b =>
    accounts.map (fun a => if a.id = k then { a with balance := b } else a)
  | _, _ => accounts

/-- `handleDeleteTransaction` of `part_000`: one `runTransaction` that
restores stored balances for `income` / `expense` / `transfer` deletions
(both transfer writes use the balances read before either write) and then
deletes the transaction document.  No other transaction kind — in particular
neither `payment` nor `card-expense` — triggers any restoration, and
`paidCardTransactionIds` is never consulted.  (`handleDeleteTransaction` of
`App.jsx` only performs the final document deletion.) -/
def deleteTransaction (st : DocState) (t : Transaction) : DocState :=
  let accounts :=
    match t.type with
    | TxType.income =>
      writeBalance st.accounts t.accountId
        ((readBalance st.accounts t.accountId).map (· - t.amount))
    | TxType.expense =>
      writeBalance st.accounts t.accountId
        ((readBalance st.accounts t.accountId).map (· + t.amount))
    | TxType.transfer =>
      let fromRead := readBalance st.accounts t.accountId
      let toRead := readBalance st.accounts t.toAccountId
      writeBalance
        (writeBalance st.accounts t.accountId (fromRead.map (· + t.amount)))
        t.toAccountId (toRead.map (· - t.amount))
    | _ => st.accounts
  ⟨accounts, st.transactions.filter (fun x => decide (x.id ≠ t.id))⟩

/-- `handleDeleteTransaction` of `App.jsx`: `deleteDoc` only. -/
def deleteTransactionDocOnly (st : DocState) (t : Transaction) : DocState :=
  ⟨st.accounts, st.transactions.filter (fun x => decide (x.id ≠ t.id))⟩

def c5CardTx : Transaction :=
  ⟨"ce1", TxType.cardExpense, "buy", 100, none, none, none, none, some "c1", true, [],
    ⟨2026, 0, 5, 0, 0, 0⟩⟩

def c5PayTx : Transaction :=
  ⟨"p1", TxType.payment, "card settlement", 100, none, none, some "a1", none, none, false,
    ["ce1"], ⟨2026, 0, 20, 0, 0, 0⟩⟩

def c5St : DocState := ⟨[⟨"a1", "KRW", 500⟩], [c5CardTx, c5PayTx]⟩

/-- C5 (code bug): deleting the payment `p1` (amount 100, settling `ce1`,
debited from account `a1`) removes only the payment document — under both
revisions' delete handlers, `a1`'s stored balance stays 500 instead of being
credited back to 600, and `ce1` keeps `isPaid = true`.  The claim (and the
app's own confirmation message, which promises balance restoration) requires
the reversal. -/
theorem c5_delete_payment_not_reversed :
    deleteTransaction c5St c5PayTx = ⟨[⟨"a1", "KRW", 500⟩], [c5CardTx]⟩
    ∧ deleteTransactionDocOnly c5St c5PayTx = ⟨[⟨"a1", "KRW", 500⟩], [c5CardTx]⟩
    ∧ c5CardTx.isPaid = true
    ∧ c5PayTx.paidCardTransactionIds = ["ce1"] := by
  decide

/-! ### C8: transfer validation on submission -/

/-- The document `AddTransactionForm` (part_001) writes for one submission;
only the fields the form sets are populated. -/
def p1FormDoc (ty : TxType) (desc : String) (amount : Int) (date : JsDate)
    (accountId cardId fromAccountId toAccountId : String) (newId : String) : Transaction :=
  match ty with
  | TxType.cardExpense =>
    ⟨newId, ty, desc, amount, none, none, none, none, some cardId, false, [], date⟩
  | TxType.transfer =>
    ⟨newId, ty, desc, amount, none, none, some fromAccountId, some toAccountId, none, false, [],
      date⟩
  | _ => ⟨newId, ty, desc, amount, none, none, some accountId, none, none, false, [], date⟩

/-- `AddTransactionForm.handleSubmit` of part_001: a single `runTransaction`
that, for `income`/`expense`, debits/credits the (required) account and
writes the document; for `card-expense` writes the document with
`isPaid: false`; and for `transfer` first rejects a same-account transfer,
then missing accounts, then mismatched currencies, before updating both
balances (from their pre-transaction reads) and writing the document. -/
def addTransactionFormSubmit (st : DocState) (ty : TxType) (desc : String) (amount : Int)
    (date : JsDate) (accountId cardId fromAccountId toAccountId : String) (newId : String) :
    Except String DocState :=
  match ty with
  | TxType.income | TxType.expense =>
    match lookupStored st.accounts accountId with
    | none => .error "Account not found"
    | some acc =>
      let newBalance :=
        if ty = TxType.income then acc.balance + amount else acc.balance - amount
      .ok ⟨st.accounts.map (fun a =>
            if a.id = accountId then { a with balance := newBalance } else a),
          st.transactions
            ++ [p1FormDoc ty desc amount date accountId cardId fromAccountId toAccountId newId]⟩
  | TxType.cardExpense =>
    .ok ⟨st.accounts,
        st.transactions
          ++ [p1FormDoc ty desc amount date accountId cardId fromAccountId toAccountId newId]⟩
  | TxType.transfer =>
    if fromAccountId = toAccountId then .error "same-account transfer not allowed"
    else
      match lookupStored st.accounts fromAccountId, lookupStored st.accounts toAccountId with
      | some fromAcc, some toAcc =>
        if fromAcc.currency ≠ toAcc.currency then
          .error "cross-currency transfer not supported"
        else
          .ok ⟨(st.accounts.map (fun a =>
                  if a.id = fromAccountId then { a with balance := fromAcc.balance - amount }
                  else a)).map (fun a =>
                  if a.id = toAccountId then { a with balance := toAcc.balance + amount }
                  else a),
              st.transactions
                ++ [p1FormDoc ty desc amount date accountId cardId fromAccountId toAccountId
                      newId]⟩
      | _, _ => .error "account not found"
  | TxType.payment => .ok st

/-- The document `TransactionForm.handleSubmit` (App.jsx) builds: it sets
`originalAmount`/`originalCurrency` from the form inputs and — unlike the
earlier form — writes no stored `amount` field; the integer model records 0
for that absent field. -/
def appFormDoc (ty : TxType) (desc : String) (inputAmount : Int) (inputCurrency : String)
    (date : JsDate) (accountId cardId fromAccountId toAccountId : String) (newId : String) :
    Transaction :=
  ⟨newId, ty, desc, 0, some inputAmount, some inputCurrency,
    some (if ty = TxType.transfer then fromAccountId else accountId),
    if ty = TxType.transfer then some toAccountId else none,
    if ty = TxType.cardExpense then some cardId else none,
    false, [], date⟩

/-- `TransactionForm.handleSubmit` (App.jsx), add mode: one unconditional
`setDoc` of the built document — no validation of any kind, and no stored
balance is touched (the derived-balance design recomputes balances from the
transaction list). -/
def transactionFormSubmit (transactions : List Transaction) (ty : TxType) (desc : String)
    (inputAmount : Int) (inputCurrency : String) (date : JsDate)
    (accountId cardId fromAccountId toAccountId : String) (newId : String) :
    List Transaction :=
  transactions
    ++ [appFormDoc ty desc inputAmount inputCurrency date accountId cardId fromAccountId
          toAccountId newId]

/-- C8 counterexample: submitting a transfer whose source account equals its
destination account through App.jsx's `TransactionForm` is NOT rejected — the
transaction document is created (the claim holds of the earlier
`AddTransactionForm` revision only). -/
theorem c8_counterexample :
    ¬ (transactionFormSubmit [] TxType.transfer "move" 100 "KRW" ⟨2026, 0, 5, 0, 0, 0⟩
        "" "" "acc1" "acc1" "n1" = []) := by
  decide

/-- C8 (amended): in the `AddTransactionForm` revision (part_001), submitting
a transfer whose source equals its destination, or whose source and
destination accounts have different currencies, aborts the atomic transaction
before any write: an error is reported, no transaction document is created
and no stored balance changes.  App.jsx's `TransactionForm`, by contrast,
performs no transfer validation and unconditionally creates the built
document (touching no stored balances). -/
theorem c8_addform_rejects_invalid_transfers (st : DocState) (desc : String) (amount : Int)
    (date : JsDate) (accountId cardId fromId toId newId : String) :
    (fromId = toId →
      commitOr st (addTransactionFormSubmit st TxType.transfer desc amount date accountId
          cardId fromId toId newId) = st
      ∧ ∃ e, addTransactionFormSubmit st TxType.transfer desc amount date accountId cardId
          fromId toId newId = .error e)
    ∧ (∀ fromAcc toAcc, fromId ≠ toId →
        lookupStored st.accounts fromId = some fromAcc →
        lookupStored st.accounts toId = some toAcc →
        fromAcc.currency ≠ toAcc.currency →
        commitOr st (addTransactionFormSubmit st TxType.transfer desc amount date accountId
            cardId fromId toId newId) = st
        ∧ ∃ e, addTransactionFormSubmit st TxType.transfer desc amount date accountId cardId
            fromId toId newId = .error e)
    ∧ ∀ ts, transactionFormSubmit ts TxType.transfer desc amount "KRW" date accountId cardId
        fromId toId newId
      = ts ++ [appFormDoc TxType.transfer desc amount "KRW" date accountId cardId fromId toId
          newId] := by
  refine ⟨?_, ?_, fun ts => rfl⟩
  · intro hsame
    rw [addTransactionFormSubmit, if_pos hsame]
    exact ⟨rfl, _, rfl⟩
  · intro fromAcc toAcc hne hfrom hto hcur
    simp only [addTransactionFormSubmit, if_neg hne, hfrom, hto, if_pos hcur]
    exact ⟨rfl, _, rfl⟩

def c8St : DocState := ⟨[⟨"k1", "KRW", 500⟩, ⟨"u1", "USD", 300⟩], []⟩

/-- Witness for C8 (amended): a same-account transfer and a KRW→USD transfer
are both rejected with the store unchanged. -/
theorem c8_addform_rejects_invalid_transfers_witness :
    commitOr c8St (addTransactionFormSubmit c8St TxType.transfer "move" 100 ⟨2026, 0, 5, 0, 0, 0⟩
        "" "" "k1" "k1" "n1") = c8St
    ∧ commitOr c8St (addTransactionFormSubmit c8St TxType.transfer "move" 100
        ⟨2026, 0, 5, 0, 0, 0⟩ "" "" "k1" "u1" "n1") = c8St :=
  ⟨((c8_addform_rejects_invalid_transfers c8St "move" 100 ⟨2026, 0, 5, 0, 0, 0⟩ "" "" "k1" "k1"
      "n1").1 rfl).1,
   ((c8_addform_rejects_invalid_transfers c8St "move" 100 ⟨2026, 0, 5, 0, 0, 0⟩ "" "" "k1" "u1"
      "n1").2.1 ⟨"k1", "KRW", 500⟩ ⟨"u1", "USD", 300⟩ (by decide) (by decide) (by decide)
      (by decide)).1⟩

/-! ### C10: JSON export followed by destructive JSON import

`DataIOView.handleExport` serializes the five core collections, stripping the
internal `id` from every record and converting the `date` timestamp of
transactions and schedules to an ISO string; `handleImport` deletes every
document of the five collections and bulk-inserts the file's records,
rebuilding timestamps from the ISO strings, with fresh document ids except
for `currencies`, which are keyed by their `symbol`.  The record shapes are
the spec's data model (§3). -/

structure Schedule where
  id : String
  description : String
  amount : Int
  date : JsDate
  accountId : String
  isCompleted : Bool
deriving DecidableEq

structure CurrencyDoc where
  id : String
  symbol : String
  name : String
  rate : Int
  isBase : Bool
deriving DecidableEq

/-- Modelled from the spec: the external ISO-8601 timestamp serialization
(`date.toDate().toISOString()` on export, `Timestamp.fromDate(new Date(s))`
on import) is not code of this repository; per the spec it is a faithful
round trip "up to timestamp precision", so the serialized form is modelled
as the calendar value itself behind a constructor. -/
structure IsoDate where
  value : JsDate
deriving DecidableEq

def toISOString (d : JsDate) : IsoDate := ⟨d⟩

def parseISO (s : IsoDate) : JsDate := s.value

structure ExAccount where
  name : String
  category : String
  currency : String
  initialBalance : Option Int
deriving DecidableEq

structure ExCard where
  name : String
  paymentDay : Int
  usageStartDay : Int
  usageEndDay : Int
  linkedAccountId : Option String
deriving DecidableEq

structure ExTransaction where
  type : TxType
  description : String
  amount : Int
  originalAmount : Option Int
  originalCurrency : Option String
  accountId : Option String
  toAccountId : Option String
  cardId : Option String
  isPaid : Bool
  paidCardTransactionIds : List String
  date : IsoDate
deriving DecidableEq

structure ExSchedule where
  description : String
  amount : Int
  date : IsoDate
  accountId : String
  isCompleted : Bool
deriving DecidableEq

structure ExCurrency where
  symbol : String
  name : String
  rate : Int
  isBase : Bool
deriving DecidableEq

def exportAccount (a : Account) : ExAccount :=
  ⟨a.name, a.category, a.currency, a.initialBalance⟩

def exportCard (c : Card) : ExCard :=
  ⟨c.name, c.paymentDay, c.usageStartDay, c.usageEndDay, c.linkedAccountId⟩

def exportTransaction (t : Transaction) : ExTransaction :=
  ⟨t.type, t.description, t.amount, t.originalAmount, t.originalCurrency, t.accountId,
    t.toAccountId, t.cardId, t.isPaid, t.paidCardTransactionIds, toISOString t.date⟩

def exportSchedule (s : Schedule) : ExSchedule :=
  ⟨s.description, s.amount, toISOString s.date, s.accountId, s.isCompleted⟩

def exportCurrency (c : CurrencyDoc) : ExCurrency :=
  ⟨c.symbol, c.name, c.rate, c.isBase⟩

def importAccount (i : String) (e : ExAccount) : Account :=
  ⟨i, e.name, e.category, e.currency, e.initialBalance⟩

def importCard (i : String) (e : ExCard) : Card :=
  ⟨i, e.name, e.paymentDay, e.usageStartDay, e.usageEndDay, e.linkedAccountId⟩

def importTransaction (i : String) (e : ExTransaction) : Transaction :=
  ⟨i, e.type, e.description, e.amount, e.originalAmount, e.originalCurrency, e.accountId,
    e.toAccountId, e.cardId, e.isPaid, e.paidCardTransactionIds, parseISO e.date⟩

def importSchedule (i : String) (e : ExSchedule) : Schedule :=
  ⟨i, e.description, e.amount, parseISO e.date, e.accountId, e.isCompleted⟩

/-- `doc(db, 'users/.../currencies', item.symbol)`: the imported currency
document is keyed by its symbol. -/
def importCurrency (e : ExCurrency) : CurrencyDoc :=
  ⟨e.symbol, e.symbol, e.name, e.rate, e.isBase⟩

structure Database where
  accounts : List Account
  cards : List Card
  transactions : List Transaction
  schedules : List Schedule
  currencies : List CurrencyDoc
deriving DecidableEq

structure ExportFile where
  accounts : List ExAccount
  cards : List ExCard
  transactions : List ExTransaction
  schedules : List ExSchedule
  currencies : List ExCurrency
deriving DecidableEq

def exportJSON (db : Database) : ExportFile :=
  ⟨db.accounts.map exportAccount, db.cards.map exportCard,
    db.transactions.map exportTransaction, db.schedules.map exportSchedule,
    db.currencies.map exportCurrency⟩

/-- `doc(collection(db, ...))` draws a fresh id per inserted record; the id
supply is modelled as a function of the record's position. -/
def assignIds {α β : Type} (f : String → α → β) (fresh : Nat → String) :
    Nat → List α → List β
  | _, [] => []
  | n, a :: as => f (fresh n) a :: assignIds f fresh (n + 1) as

/-- The destructive JSON import: the five collections are first emptied, so
the resulting database consists exactly of the file's records. -/
def importJSON (file : ExportFile) (freshA freshC freshT freshS : Nat → String) : Database :=
  ⟨assignIds importAccount freshA 0 file.accounts,
    assignIds importCard freshC 0 file.cards,
    assignIds importTransaction freshT 0 file.transactions,
    assignIds importSchedule freshS 0 file.schedules,
    file.currencies.map importCurrency⟩

theorem map_assignIds {α β : Type} (f : String → α → β) (g : β → α) (fresh : Nat → String)
    (h : ∀ i a, g (f i a) = a) :
    ∀ (n : Nat) (l : List α), (assignIds f fresh n l).map g = l := by
  intro n l
  induction l generalizing n with
  | nil => rfl
  | cons a as ih => simp [assignIds, h, ih]

/-- C10: exporting and then destructively importing any data set reproduces
the five collections identically up to id reassignment (every non-`id` field
of every Account, Card, Transaction, Schedule and Currency record is
recovered, dates through the ISO codec), and the imported currency documents
are keyed by their symbol. -/
theorem c10_export_import_roundtrip (db : Database)
    (freshA freshC freshT freshS : Nat → String) :
    (importJSON (exportJSON db) freshA freshC freshT freshS).accounts.map exportAccount
      = db.accounts.map exportAccount
    ∧ (importJSON (exportJSON db) freshA freshC freshT freshS).cards.map exportCard
      = db.cards.map exportCard
    ∧ (importJSON (exportJSON db) freshA freshC freshT freshS).transactions.map
        exportTransaction = db.transactions.map exportTransaction
    ∧ (importJSON (exportJSON db) freshA freshC freshT freshS).schedules.map exportSchedule
      = db.schedules.map exportSchedule
    ∧ (importJSON (exportJSON db) freshA freshC freshT freshS).currencies.map exportCurrency
      = db.currencies.map exportCurrency
    ∧ ∀ c ∈ (importJSON (exportJSON db) freshA freshC freshT freshS).currencies,
        c.id = c.symbol := by
  refine ⟨?_, ?_, ?_, ?_, ?_, ?_⟩
  · exact map_assignIds importAccount exportAccount freshA (fun i a => rfl) 0 _
  · exact map_assignIds importCard exportCard freshC (fun i a => rfl) 0 _
  · exact map_assignIds importTransaction exportTransaction freshT (fun i a => rfl) 0 _
  · exact map_assignIds importSchedule exportSchedule freshS (fun i a => rfl) 0 _
  · show (List.map exportCurrency (db.currencies.map exportCurrency |>.map importCurrency))
      = db.currencies.map exportCurrency
    rw [List.map_map, List.map_map]
    rfl
  · intro c hc
    obtain ⟨e, _, rfl⟩ := List.mem_map.mp hc
    rfl

end LedgerApp
